import Mathlib

/-!
# Verification of the lapviz-dashboard time-synchronization core

Shallow embedding of the dashboard's sync state, projectors, playback
driver polling loop, hover broadcast channel, fetch effects and API
helpers, with theorems checking the specified properties against the
code. JavaScript numbers are embedded as rationals; a possibly-NaN
number is `Option ℚ` (with `none` for NaN) where the code can produce
NaN; a possibly-absent value is likewise `Option`.
-/

namespace LapViz

/-! ## Shared sync state (SyncContext ~ SyncProvider) -/

/-- State held by the `SyncProvider`: `videoTime`, `lapStartVideoTime` and
`isSyncActive` useState cells. -/
structure SyncState where
  videoTime : ℚ
  lapStartVideoTime : ℚ
  isSyncActive : Bool
deriving DecidableEq, Repr

/-- Initial useState values of the provider: `0`, `0`, `false`. -/
def initialSyncState : SyncState :=
  { videoTime := 0, lapStartVideoTime := 0, isSyncActive := false }

/-- The three setters exposed through the context. -/
inductive SyncAction where
  | setVideoTime (t : ℚ)
  | setLapStartVideoTime (t : ℚ)
  | setIsSyncActive (b : Bool)
deriving DecidableEq, Repr

/-- Effect of one setter call on the stored state. -/
def applySyncAction (s : SyncState) : SyncAction → SyncState
  | .setVideoTime t => { s with videoTime := t }
  | .setLapStartVideoTime t => { s with lapStartVideoTime := t }
  | .setIsSyncActive b => { s with isSyncActive := b }

/-- Run a sequence of setter calls from the initial provider state. -/
def runSyncActions (acts : List SyncAction) : SyncState :=
  acts.foldl applySyncAction initialSyncState

/-- Derived value computed on every render of the provider:
`isSyncActive ? Math.max(0, videoTime - lapStartVideoTime) : null`. -/
def graphTime (s : SyncState) : Option ℚ :=
  if s.isSyncActive then some (max 0 (s.videoTime - s.lapStartVideoTime)) else none

/-! ## Sync-time parser (Dashboard.tsx, convertSyncTimeToSeconds) -/

/-- JavaScript `parseInt(str, 10)`: skip leading whitespace, optional
sign, then the maximal digit prefix; NaN (`none`) when no digit is
found. -/
def jsParseIntChars (cs : List Char) : Option Int :=
  let s := cs.dropWhile (fun c => c = ' ')
  let core := if s.head? = some '-' ∨ s.head? = some '+' then s.drop 1 else s
  let digits := core.takeWhile Char.isDigit
  if digits.isEmpty then none
  else
    let n : Int :=
      digits.foldl (fun acc c => acc * 10 + ((c.toNat - 48 : ℕ) : Int)) 0
    if s.head? = some '-' then some (-n) else some n

/-- JavaScript `parseInt` on a string. -/
def jsParseInt (str : String) : Option Int := jsParseIntChars str.toList

/-- Split a character list at a separator, keeping empty fields, as
JavaScript `split(sep)` does. -/
def splitCharList (sep : Char) : List Char → List (List Char)
  | [] => [[]]
  | c :: rest =>
    let r := splitCharList sep rest
    if c = sep then [] :: r
    else
      match r with
      | g :: gs => (c :: g) :: gs
      | [] => [[c]]

/-- JavaScript `str.split(sep)` for a single-character separator. -/
def jsSplit (str : String) (sep : Char) : List String :=
  (splitCharList sep str.toList).map (fun cs => String.mk cs)

/-- JavaScript truthiness of a possibly-undefined string: `undefined`
and the empty string are falsy, every other string is truthy. -/
def jsTruthy : Option String → Bool
  | some str => str != ""
  | none => false

/-- The `milliseconds` sub-expression of `convertSyncTimeToSeconds`:
`secondsPart[1] ? parseInt(secondsPart[1].substring(0, 3), 10) / 1000
: 0` — the fractional field contributes only when present and
non-empty (JS truthiness), otherwise the conditional yields `0`. -/
def millisecondsOf (third : String) : Option ℚ :=
  let secondsPart := jsSplit third '.'
  if jsTruthy secondsPart[1]? then
    (jsParseInt ((secondsPart[1]?.getD "").take 3)).map
      (fun n => (n : ℚ) / 1000)
  else some 0

/-- Embedding of `convertSyncTimeToSeconds`.  The result is a JS number,
so `Option ℚ` with `none` for NaN.  The guard `if (!syncTime) return 0`
catches `null` and the empty string; accessing `timeParts[2]` on a
string with fewer than three colon-separated fields throws, and the
`catch` returns `0`; otherwise NaN from any failed `parseInt`
propagates through the arithmetic (the fractional part is guarded by
truthiness, see `millisecondsOf`). -/
def convertSyncTimeToSeconds (syncTime : Option String) : Option ℚ :=
  match syncTime with
  | none => some 0
  | some s =>
    if s = "" then some 0
    else
      let timeParts := jsSplit s ':'
      match timeParts[2]? with
      | none => some 0
      | some third =>
        let hours := jsParseInt (timeParts[0]?.getD "")
        let minutes := jsParseInt (timeParts[1]?.getD "")
        let seconds := jsParseInt ((jsSplit third '.')[0]?.getD "")
        let milliseconds := millisecondsOf third
        match hours, minutes, seconds, milliseconds with
        | some h, some m, some sec, some ms =>
          some ((h : ℚ) * 3600 + (m : ℚ) * 60 + (sec : ℚ) + ms)
        | _, _, _, _ => none

/-! ## Telemetry API (sessionApi.ts) -/

/-- The parts of a fetch `Response` the API helpers look at. -/
structure HttpResponse where
  ok : Bool
  status : ℕ
  statusText : String
  body : String
deriving DecidableEq, Repr

/-- Embedding of `fetchSessionData`: on a non-ok response it throws
`new Error` built from the status and the status text (with the
fallback text when `statusText` is empty); the body is read into
`errorBody` but only logged, never put into the error.  On success the
parsed payload is returned (abstracted as the body). -/
def fetchSessionData (r : HttpResponse) : Except String String :=
  if r.ok = true then .ok r.body
  else .error ("HTTP error! status: " ++ toString r.status ++ " - " ++
    (if r.statusText = "" then "Failed to fetch" else r.statusText))

/-- Embedding of `fetchLapChannelData`: identical error construction to
`fetchSessionData` in the source. -/
def fetchLapChannelData (r : HttpResponse) : Except String String :=
  if r.ok = true then .ok r.body
  else .error ("HTTP error! status: " ++ toString r.status ++ " - " ++
    (if r.statusText = "" then "Failed to fetch" else r.statusText))

/-- One `{s, d}` channel entry; `d` is a JS number, `none` models NaN. -/
structure ChannelDataPoint where
  s : ℚ
  d : Option ℚ
deriving DecidableEq, Repr

/-- One merged `{lat, lng, s}` track-path point. -/
structure TrackPathPoint where
  lat : ℚ
  lng : ℚ
  s : ℚ
deriving DecidableEq, Repr

/-- Embedding of the merge loop of `fetchLapTrackPath`: iterate indices
`0 … min(len)-1`; when both entries are present (truthy) and neither
`d` is NaN, push `lat` from the latitude value, `lng` from the
longitude value and `s` from the latitude time; otherwise skip the
index.  A list entry is `Option` because a fetched JSON array can hold
null entries. -/
def mergeTrackPath :
    List (Option ChannelDataPoint) → List (Option ChannelDataPoint) →
      List TrackPathPoint
  | some a :: latRest, some b :: lngRest =>
    match a.d, b.d with
    | some la, some lb =>
      { lat := la, lng := lb, s := a.s } :: mergeTrackPath latRest lngRest
    | _, _ => mergeTrackPath latRest lngRest
  | _ :: latRest, _ :: lngRest => mergeTrackPath latRest lngRest
  | _, _ => []

/-! ## Marker/cursor projectors (ChartComponent.tsx, MapComponent.tsx) -/

/-- One chart data point: the numeric time parsed from the label string
(`parseFloat(d.label)`) and the value of the selected y-axis column. -/
structure DataPoint where
  labelTime : ℚ
  value : ℚ
deriving DecidableEq, Repr

/-- One iteration of the nearest-point loop in the chart sync effect:
replace the accumulator when the candidate is strictly closer to
`graphTime`. -/
def chartNearestStep (graphTime : ℚ) (acc : DataPoint × ℚ) (d : DataPoint) :
    DataPoint × ℚ :=
  if |d.labelTime - graphTime| < acc.2 then (d, |d.labelTime - graphTime|)
  else acc

/-- Nearest-point resolution of the chart sync effect: start with
`data[0]` and its difference, scan indices `1 …`; `none` when the data
is empty (the effect body is guarded by `data.length > 0`). -/
def chartNearestDataPoint (data : List DataPoint) (graphTime : ℚ) :
    Option DataPoint :=
  match data with
  | [] => none
  | d0 :: rest =>
    some ((rest.foldl (chartNearestStep graphTime)
      (d0, |d0.labelTime - graphTime|)).1)

/-- One iteration of the `for … of trackPath` loop in
`findTrackPointByTime`. -/
def findTrackPointStep (time : ℚ) (acc : TrackPathPoint × ℚ)
    (p : TrackPathPoint) : TrackPathPoint × ℚ :=
  if |p.s - time| < acc.2 then (p, |p.s - time|) else acc

/-- Embedding of `findTrackPointByTime`: returns `null` on an empty
track path, otherwise starts from `trackPath[0]` and scans the whole
list for a strictly closer point. -/
def findTrackPointByTime (trackPath : List TrackPathPoint) (time : ℚ) :
    Option TrackPathPoint :=
  match trackPath with
  | [] => none
  | p0 :: _ =>
    some ((trackPath.foldl (findTrackPointStep time)
      (p0, |p0.s - time|)).1)

/-- Embedding of the chart domain clamp
`Math.max(minX, Math.min(maxX, graphTime))`. -/
def currentGraphTimeX (minX maxX graphTime : ℚ) : ℚ :=
  max minX (min maxX graphTime)

/-- Embedding of `Math.min(...data.map(d => parseFloat(d.label)))`; the
chart computes it only for non-empty data, the `[]` value is arbitrary. -/
def chartMinX (data : List DataPoint) : ℚ :=
  match data with
  | [] => 0
  | d0 :: rest => rest.foldl (fun m d => min m d.labelTime) d0.labelTime

/-- Embedding of `Math.max(...data.map(d => parseFloat(d.label)))`. -/
def chartMaxX (data : List DataPoint) : ℚ :=
  match data with
  | [] => 0
  | d0 :: rest => rest.foldl (fun m d => max m d.labelTime) d0.labelTime

/-- Accumulator form of the strict-improvement scan shared by both
nearest-point loops. -/
def nearestAcc {α : Type*} (g : α → ℚ) (q : ℚ) : List α → α → α
  | [], b => b
  | x :: xs, b =>
    if |g x - q| < |g b - q| then nearestAcc g q xs x else nearestAcc g q xs b

/-- Modelled from the claim's words, for comparison with
`mergeTrackPath`: a valid index pair yields a point with `lat` from the
latitude entry's value, `lng` from the longitude entry's value and time
from the latitude entry's time; a missing entry or NaN coordinate
yields nothing. -/
def specMergePair (p : Option ChannelDataPoint × Option ChannelDataPoint) :
    Option TrackPathPoint :=
  match p with
  | (some a, some b) =>
    match a.d, b.d with
    | some la, some lb => some { lat := la, lng := lb, s := a.s }
    | _, _ => none
  | _ => none

/-! ## Hover broadcast channel (ChartComponent.tsx, VideoPlayer.tsx) -/

/-- The detail object of a `CHART_HOVER_EVENT`; a field the publisher
does not set is `none` (JavaScript `undefined`). -/
structure HoverDetail where
  time : Option ℚ
  userInitiated : Option Bool
deriving DecidableEq, Repr

/-- Embedding of `dispatchHoverTimeEvent`: the dispatched detail is the
object literal containing only `time` — no `userInitiated` field is
ever set. -/
def dispatchHoverTimeEvent (time : Option ℚ) : HoverDetail :=
  { time := time, userInitiated := none }

/-- Chart `handleMouseMove` publishing: ignored entirely while sync is
active, otherwise the nearest sample time is dispatched through
`dispatchHoverTimeEvent`. -/
def chartPointerMovePublish (isSyncActive : Bool) (nearestTime : ℚ) :
    Option HoverDetail :=
  if isSyncActive then none
  else some (dispatchHoverTimeEvent (some nearestTime))

/-- What the video driver does with one hover event. -/
inductive HoverReaction where
  | ignored
  | seekTo (absoluteVideoSeekTime : ℚ) (resumePlay : Bool)
deriving DecidableEq, Repr

/-- Embedding of the `handleGraphHover` listener in `VideoPlayer`
(player assumed ready): an event whose `userInitiated` is not `true`
(including an absent field, which JavaScript reads as `undefined`) is
ignored; otherwise a numeric time seeks to
`lapStartVideoTime + time`, resuming play when sync was active. -/
def handleGraphHover (lapStartVideoTime : ℚ) (isSyncActive : Bool)
    (d : HoverDetail) : HoverReaction :=
  if d.userInitiated = some true then
    match d.time with
    | some t => .seekTo (lapStartVideoTime + t) isSyncActive
    | none => .ignored
  else .ignored

/-! ## Channel-data fetch effect (DataVisualization.tsx) -/

/-- The chart state cells touched by the fetch effect, plus the set of
started-but-unresolved fetches (one per effect run). -/
structure ChartDataState where
  selectedLap : Option ℕ
  channelData : List ChannelDataPoint
  isLoading : Bool
  error : Option String
  pendingLaps : List ℕ
deriving DecidableEq, Repr

/-- Events of the fetch effect: a lap selection re-runs the effect and
starts a fetch for that lap; a started fetch later resolves or
rejects. -/
inductive ChartFetchEvent where
  | selectLap (lap : ℕ)
  | resolve (lap : ℕ) (data : List ChannelDataPoint)
  | reject (lap : ℕ)
deriving DecidableEq, Repr

/-- Initial chart state. -/
def initialChartDataState : ChartDataState :=
  { selectedLap := none, channelData := [], isLoading := true,
    error := none, pendingLaps := [] }

/-- Embedding of the fetch effect: the effect has no cleanup and no
liveness flag, and the continuation after `await` calls
`setChannelData(data)` without comparing the fetch's lap against the
current selection — so a resolve of any started fetch writes its data
unconditionally.  `pendingLaps` only records which fetches exist, so
that a resolve event can only occur for a started fetch. -/
def chartFetchStep (st : ChartDataState) : ChartFetchEvent → ChartDataState
  | .selectLap lap =>
    { st with selectedLap := some lap, isLoading := true, error := none,
              pendingLaps := lap :: st.pendingLaps }
  | .resolve lap data =>
    if lap ∈ st.pendingLaps then
      { st with channelData := data, isLoading := false,
                pendingLaps := st.pendingLaps.erase lap }
    else st
  | .reject lap =>
    if lap ∈ st.pendingLaps then
      { st with channelData := [],
                error := some "Failed to fetch data. Please try again.",
                isLoading := false, pendingLaps := st.pendingLaps.erase lap }
    else st

/-- Run a fetch-event sequence from the initial chart state. -/
def runChartFetch (evs : List ChartFetchEvent) : ChartDataState :=
  evs.foldl chartFetchStep initialChartDataState

/-! ## Playback driver polling (VideoPlayer.tsx onStateChange) -/

/-- Commands the polling tick sends to shared state and the player. -/
inductive PlayerCmd where
  | setVideoTime (t : ℚ)
  | pauseVideo
deriving DecidableEq, Repr

/-- Embedding of one body execution of the 50 ms playing interval:
`setVideoTime(currentTime)` always runs first, then the bound check
`if (endTime && currentTime >= endTime)` issues `pauseVideo()`;
JavaScript truthiness makes a configured `endTime` of `0` skip the
check. -/
def pollingTick (currentTime : ℚ) (endTime : Option ℚ) : List PlayerCmd :=
  PlayerCmd.setVideoTime currentTime ::
    (match endTime with
     | some e => if e ≠ 0 ∧ e ≤ currentTime then [PlayerCmd.pauseVideo] else []
     | none => [])

/-- State of the playback driver's interval bookkeeping:
`liveIntervals` is the set of not-yet-cancelled timers, `intervalRef`
is `playbackIntervalRef.current`, `nextId` generates fresh timer
handles. -/
structure DriverState where
  liveIntervals : List ℕ
  intervalRef : Option ℕ
  nextId : ℕ
  syncActive : Bool
deriving DecidableEq, Repr

/-- Player state-change and lifecycle events the driver reacts to. -/
inductive PlayerEvent where
  | playing
  | paused
  | ended
  | playerError
  | cleanup
deriving DecidableEq, Repr

/-- Driver state before any player event. -/
def initialDriverState : DriverState :=
  { liveIntervals := [], intervalRef := none, nextId := 0,
    syncActive := false }

/-- `if (playbackIntervalRef.current) clearInterval(...)`: cancel the
timer the ref points at (a no-op on an already-cancelled timer). -/
def clearIntervalRef (st : DriverState) : DriverState :=
  match st.intervalRef with
  | some i => { st with liveIntervals := st.liveIntervals.erase i }
  | none => st

/-- Embedding of the `onStateChange` handler, the `onError` handler and
the effect cleanup: entering PLAYING clears any existing interval
before `setInterval` stores a fresh handle in the ref; PAUSED/ENDED
clear the interval and null the ref; a player error clears the interval
(without nulling the ref, as in the source); cleanup clears and
nulls. -/
def driverStep (st : DriverState) : PlayerEvent → DriverState
  | .playing =>
    let st1 := clearIntervalRef { st with syncActive := true }
    { st1 with liveIntervals := st1.nextId :: st1.liveIntervals,
                intervalRef := some st1.nextId, nextId := st1.nextId + 1 }
  | .paused =>
    let st1 := clearIntervalRef { st with syncActive := false }
    { st1 with intervalRef := none }
  | .ended =>
    let st1 := clearIntervalRef { st with syncActive := false }
    { st1 with intervalRef := none }
  | .playerError => clearIntervalRef { st with syncActive := false }
  | .cleanup =>
    let st1 := clearIntervalRef { st with syncActive := false }
    { st1 with intervalRef := none }

/-- Run a player-event sequence from the initial driver state. -/
def runDriver (evs : List PlayerEvent) : DriverState :=
  evs.foldl driverStep initialDriverState

/-- Invariant tying the live timers to the stored handle: every live
timer is the one the ref currently holds. -/
def driverInv (st : DriverState) : Prop :=
  st.liveIntervals = [] ∨
    ∃ i, st.liveIntervals = [i] ∧ st.intervalRef = some i

end LapViz

namespace LapViz

/-- Claim C1: for every sequence of calls to the sync-state setters, the
derived `graphTime` is `none` exactly when `isSyncActive` is false, and
equals `max 0 (videoTime - lapStartVideoTime)` exactly when it is
true. -/
theorem graphTime_invariant (acts : List SyncAction) :
    (graphTime (runSyncActions acts) = none ↔
      (runSyncActions acts).isSyncActive = false) ∧
    (graphTime (runSyncActions acts) =
        some (max 0 ((runSyncActions acts).videoTime -
          (runSyncActions acts).lapStartVideoTime)) ↔
      (runSyncActions acts).isSyncActive = true) := by
  cases h : (runSyncActions acts).isSyncActive <;>
    simp [graphTime, h]

/-- Claim C5 counterexample: the claim says every malformed string maps
to `0`, but `"aa:bb:cc"` has three colon-separated fields, so no
exception is thrown and the failed `parseInt` calls make the result
NaN, not `0`. -/
theorem convertSyncTime_malformed_nan :
    convertSyncTimeToSeconds (some "aa:bb:cc") = none ∧
    convertSyncTimeToSeconds (some "aa:bb:cc") ≠ some 0 := by
  refine ⟨rfl, ?_⟩
  rw [show convertSyncTimeToSeconds (some "aa:bb:cc") = none from rfl]
  simp

/-- Claim C5 (amended): the parser maps `"00:01:05.500"` to `65.5` and
`"00:01:05."` (empty, falsy fractional field) to `65`; the empty string
and null map to `0`; every string with fewer than three
colon-separated fields (such as `"abc"`) maps to `0` through the
caught exception, without raising; a non-empty fractional field that
fails to parse makes the milliseconds term NaN; and every string with
three colon-separated fields any of whose numeric parts (hours,
minutes, seconds, or milliseconds) parses to NaN — such as
`"aa:bb:cc"` — evaluates to NaN rather than `0`. -/
theorem convertSyncTime_spec :
    convertSyncTimeToSeconds (some "00:01:05.500") = some (131 / 2) ∧
    convertSyncTimeToSeconds (some "00:01:05.") = some 65 ∧
    convertSyncTimeToSeconds (some "") = some 0 ∧
    convertSyncTimeToSeconds none = some 0 ∧
    (∀ s : String, (jsSplit s ':').length ≤ 2 →
      convertSyncTimeToSeconds (some s) = some 0) ∧
    (∀ third frac : String, (jsSplit third '.')[1]? = some frac →
      frac ≠ "" → jsParseInt (frac.take 3) = none →
      millisecondsOf third = none) ∧
    (∀ s third : String, (jsSplit s ':')[2]? = some third → s ≠ "" →
      (jsParseInt ((jsSplit s ':')[0]?.getD "") = none ∨
       jsParseInt ((jsSplit s ':')[1]?.getD "") = none ∨
       jsParseInt ((jsSplit third '.')[0]?.getD "") = none ∨
       millisecondsOf third = none) →
      convertSyncTimeToSeconds (some s) = none) := by
  refine ⟨?_, ?_, rfl, rfl, ?_, ?_, ?_⟩
  · rw [show convertSyncTimeToSeconds (some "00:01:05.500") =
        some ((((0 : Int) : ℚ)) * 3600 + (((1 : Int) : ℚ)) * 60 +
          (((5 : Int) : ℚ)) + ((500 : Int) : ℚ) / 1000) from rfl]
    norm_num
  · rw [show convertSyncTimeToSeconds (some "00:01:05.") =
        some ((((0 : Int) : ℚ)) * 3600 + (((1 : Int) : ℚ)) * 60 +
          (((5 : Int) : ℚ)) + (0 : ℚ)) from rfl]
    norm_num
  · intro s h
    by_cases hs : s = ""
    · rw [hs]; rfl
    · have h2 : (jsSplit s ':')[2]? = none := List.getElem?_eq_none h
      simp only [convertSyncTimeToSeconds, h2, if_neg hs]
  · intro third frac hf hfne hp
    have ht : jsTruthy (some frac) = true := by
      simp [jsTruthy, hfne]
    simp only [millisecondsOf]
    rw [hf, if_pos ht]
    simp only [Option.getD_some]
    rw [hp]
    rfl
  · intro s third h3 hne hfail
    simp only [convertSyncTimeToSeconds, h3, if_neg hne]
    rcases hfail with h | h | h | h <;>
      cases hA : jsParseInt ((jsSplit s ':')[0]?.getD "") <;>
      cases hB : jsParseInt ((jsSplit s ':')[1]?.getD "") <;>
      cases hC : jsParseInt ((jsSplit third '.')[0]?.getD "") <;>
      cases hD : millisecondsOf third <;>
      simp_all

/-- Claim C5 witness: the class-level clauses of the amended theorem
applied at `"abc"` (one colon field), at a non-empty unparsable
fraction, and at `"aa:bb:cc"` (three fields, hours parse fails). -/
theorem convertSyncTime_spec_witness :
    ((jsSplit "abc" ':').length ≤ 2) ∧
    convertSyncTimeToSeconds (some "abc") = some 0 ∧
    ((jsSplit "05.xy" '.')[1]? = some "xy") ∧
    ("xy" : String) ≠ "" ∧
    jsParseInt ("xy".take 3) = none ∧
    millisecondsOf "05.xy" = none ∧
    ((jsSplit "aa:bb:cc" ':')[2]? = some "cc") ∧
    ("aa:bb:cc" : String) ≠ "" ∧
    convertSyncTimeToSeconds (some "aa:bb:cc") = none := by
  refine ⟨by decide, ?_, by decide, by decide, by decide, ?_, by decide,
    by decide, ?_⟩
  · exact convertSyncTime_spec.2.2.2.2.1 "abc" (by decide)
  · exact convertSyncTime_spec.2.2.2.2.2.1 "05.xy" "xy" (by decide)
      (by decide) (by decide)
  · exact convertSyncTime_spec.2.2.2.2.2.2 "aa:bb:cc" "cc" (by decide)
      (by decide) (Or.inl (by decide))

/-- Claim C9 counterexample: two non-2xx responses that differ only in
their body text produce the same thrown error, so the error cannot
carry the response body text (it carries the status text instead). -/
theorem fetch_error_drops_body :
    fetchSessionData
        { ok := false, status := 404, statusText := "Not Found",
          body := "lap missing" } =
      fetchSessionData
        { ok := false, status := 404, statusText := "Not Found",
          body := "other body" } ∧
    ("lap missing" : String) ≠ "other body" ∧
    (fetchSessionData
        { ok := false, status := 404, statusText := "Not Found",
          body := "lap missing" }).isOk = false := by
  exact ⟨rfl, by decide, rfl⟩

/-- Claim C9 (amended): every non-2xx session-metadata or channel-data
fetch raises an error whose message carries the HTTP status and the
response status text (with the fallback text when the status text is
empty); the body text is read for logging but not included. -/
theorem fetch_error_carries_status (r : HttpResponse) (h : r.ok = false) :
    fetchSessionData r =
      .error ("HTTP error! status: " ++ toString r.status ++ " - " ++
        (if r.statusText = "" then "Failed to fetch" else r.statusText)) ∧
    fetchLapChannelData r =
      .error ("HTTP error! status: " ++ toString r.status ++ " - " ++
        (if r.statusText = "" then "Failed to fetch" else r.statusText)) := by
  constructor <;> simp [fetchSessionData, fetchLapChannelData, h]

/-- Claim C9 witness: the amended theorem applied to a concrete 404
response. -/
theorem fetch_error_carries_status_witness :
    fetchSessionData
        { ok := false, status := 404, statusText := "Not Found",
          body := "lap missing" } =
      .error "HTTP error! status: 404 - Not Found" ∧
    fetchLapChannelData
        { ok := false, status := 404, statusText := "Not Found",
          body := "lap missing" } =
      .error "HTTP error! status: 404 - Not Found" := by
  exact fetch_error_carries_status
    { ok := false, status := 404, statusText := "Not Found",
      body := "lap missing" } rfl

/-- Claim C10: the merge loop of `fetchLapTrackPath` is exactly the
index-paired filter of the two channel arrays truncated to the shorter
length (lat from the latitude value, lng from the longitude value, time
from the latitude entry — never from the longitude channel), its output
length never exceeds the shorter input length, and on a concrete input
with one NaN coordinate the output is strictly shorter than the
minimum of the input lengths. -/
theorem mergeTrackPath_spec :
    (∀ latData lngData : List (Option ChannelDataPoint),
      mergeTrackPath latData lngData =
        (latData.zip lngData).filterMap specMergePair) ∧
    (∀ latData lngData : List (Option ChannelDataPoint),
      (mergeTrackPath latData lngData).length ≤
        min latData.length lngData.length) ∧
    (mergeTrackPath
        [some { s := 1, d := some 10 }, some { s := 2, d := none }]
        [some { s := 100, d := some 30 }, some { s := 200, d := some 40 }] =
      [{ lat := 10, lng := 30, s := 1 }] ∧
      (1 : ℕ) < min 2 2) := by
  have key : ∀ latData lngData : List (Option ChannelDataPoint),
      mergeTrackPath latData lngData =
        (latData.zip lngData).filterMap specMergePair := by
    intro latData
    induction latData with
    | nil => intro lngData; cases lngData <;> simp [mergeTrackPath]
    | cons a? rest ih =>
      intro lngData
      cases lngData with
      | nil => simp [mergeTrackPath]
      | cons b? lngRest =>
        cases a? with
        | none => simp [mergeTrackPath, specMergePair, ih]
        | some a =>
          cases b? with
          | none => simp [mergeTrackPath, specMergePair, ih]
          | some b =>
            cases hla : a.d <;> cases hlb : b.d <;>
              simp [mergeTrackPath, specMergePair, hla, hlb, ih]
  refine ⟨key, ?_, rfl, by decide⟩
  intro latData lngData
  rw [key]
  have h1 := List.length_filterMap_le specMergePair (latData.zip lngData)
  have h2 : (latData.zip lngData).length =
      min latData.length lngData.length := by
    rw [List.length_zip]
  exact h2 ▸ h1

/-- The strict-improvement scan computes `List.argmin` of the absolute
difference, whose Mathlib characterization carries the lowest-index
tie-break. -/
theorem nearestAcc_eq_argmin {α : Type*} (g : α → ℚ) (q : ℚ) :
    ∀ (xs : List α) (b : α),
      some (nearestAcc g q xs b) =
        List.argmin (fun x => |g x - q|) (b :: xs) := by
  intro xs
  induction xs with
  | nil =>
    intro b
    simp [nearestAcc]
  | cons x xs ih =>
    intro b
    by_cases hxb : |g x - q| < |g b - q|
    · rw [nearestAcc, if_pos hxb, ih x]
      cases hc : List.argmin (fun y => |g y - q|) (x :: xs) with
      | none => simp at hc
      | some c =>
        have hcmem : c ∈ List.argmin (fun y => |g y - q|) (x :: xs) :=
          Option.mem_def.mpr hc
        have hcx : |g c - q| ≤ |g x - q| :=
          List.le_of_mem_argmin (f := fun y => |g y - q|)
            (List.mem_cons_self x xs) hcmem
        simp only [List.argmin_cons, hc]
        rw [if_pos (lt_of_le_of_lt hcx hxb)]
    · have hbx : |g b - q| ≤ |g x - q| := le_of_not_lt hxb
      rw [nearestAcc, if_neg hxb, ih b]
      cases hxs : List.argmin (fun y => |g y - q|) xs with
      | none =>
        simp only [List.argmin_cons, hxs]
        rw [if_neg (not_lt_of_le hbx)]
      | some c =>
        by_cases hcx : |g c - q| < |g x - q|
        · simp only [List.argmin_cons, hxs, if_pos hcx]
        · have hxc : |g x - q| ≤ |g c - q| := le_of_not_lt hcx
          simp only [List.argmin_cons, hxs, if_neg hcx]
          rw [if_neg (not_lt_of_le hbx),
            if_neg (not_lt_of_le (le_trans hbx hxc))]

/-- The chart loop accumulator always holds the difference of its
point, so the pair fold agrees with the plain scan. -/
theorem foldl_chartStep_eq (q : ℚ) :
    ∀ (xs : List DataPoint) (b : DataPoint),
      (xs.foldl (chartNearestStep q) (b, |b.labelTime - q|)).1 =
        nearestAcc (fun d => d.labelTime) q xs b := by
  intro xs
  induction xs with
  | nil => intro b; rfl
  | cons x xs ih =>
    intro b
    rw [List.foldl_cons, nearestAcc, chartNearestStep]
    by_cases h : |x.labelTime - q| < |b.labelTime - q|
    · rw [if_pos h, if_pos h, ih x]
    · rw [if_neg h, if_neg h, ih b]

/-- The map loop accumulator always holds the difference of its point,
so the pair fold agrees with the plain scan. -/
theorem foldl_trackStep_eq (t : ℚ) :
    ∀ (xs : List TrackPathPoint) (b : TrackPathPoint),
      (xs.foldl (findTrackPointStep t) (b, |b.s - t|)).1 =
        nearestAcc (fun p => p.s) t xs b := by
  intro xs
  induction xs with
  | nil => intro b; rfl
  | cons x xs ih =>
    intro b
    rw [List.foldl_cons, nearestAcc, findTrackPointStep]
    by_cases h : |x.s - t| < |b.s - t|
    · rw [if_pos h, if_pos h, ih x]
    · rw [if_neg h, if_neg h, ih b]

/-- The chart sync-effect loop is `argmin` of the absolute time
difference. -/
theorem chartNearestDataPoint_eq_argmin (data : List DataPoint) (q : ℚ) :
    chartNearestDataPoint data q =
      data.argmin (fun d => |d.labelTime - q|) := by
  cases data with
  | nil => rfl
  | cons d0 rest =>
    rw [chartNearestDataPoint]
    rw [foldl_chartStep_eq, nearestAcc_eq_argmin]

/-- The map nearest-point function is `argmin` of the absolute time
difference. -/
theorem findTrackPointByTime_eq_argmin (tp : List TrackPathPoint) (t : ℚ) :
    findTrackPointByTime tp t = tp.argmin (fun p => |p.s - t|) := by
  cases tp with
  | nil => rfl
  | cons p0 rest =>
    rw [findTrackPointByTime, List.foldl_cons, findTrackPointStep,
      if_neg (lt_irrefl _)]
    rw [foldl_trackStep_eq, nearestAcc_eq_argmin]

/-- Every element of a list that is pairwise non-decreasing under `g`
is bounded by the value of `g` at the last element. -/
theorem le_getLast_of_pairwise {α : Type*} (g : α → ℚ) :
    ∀ (l : List α) (hl : l ≠ []),
      l.Pairwise (fun a b => g a ≤ g b) → ∀ a ∈ l, g a ≤ g (l.getLast hl) := by
  intro l
  induction l with
  | nil => intro hl; exact absurd rfl hl
  | cons x xs ih =>
    intro hl hp a ha
    cases xs with
    | nil =>
      simp only [List.mem_singleton] at ha
      subst ha
      simp [List.getLast_singleton]
    | cons y ys =>
      have hp1 := List.pairwise_cons.1 hp
      rw [List.getLast_cons (List.cons_ne_nil y ys)]
      rcases List.mem_cons.1 ha with h | h
      · subst h
        exact hp1.1 _ (List.getLast_mem (List.cons_ne_nil y ys))
      · exact ih (List.cons_ne_nil y ys) hp1.2 a h

/-- On a list non-decreasing under `g`, a query at or below the head's
value has the head as its first minimizer of absolute difference. -/
theorem argmin_dist_of_le_head {α : Type*} [DecidableEq α] (g : α → ℚ)
    (q : ℚ) (l : List α) (hl : l ≠ [])
    (hs : l.Pairwise (fun a b => g a ≤ g b)) (hq : q ≤ g (l.head hl)) :
    l.argmin (fun x => |g x - q|) = some (l.head hl) := by
  cases l with
  | nil => exact absurd rfl hl
  | cons h0 rest =>
    simp only [List.head_cons] at hq ⊢
    rw [List.argmin_eq_some_iff]
    refine ⟨List.mem_cons_self _ _, ?_, ?_⟩
    · intro a ha
      have hle : g h0 ≤ g a := by
        rcases List.mem_cons.1 ha with h | h
        · rw [h]
        · exact (List.pairwise_cons.1 hs).1 a h
      have h1 : |g h0 - q| = g h0 - q := abs_of_nonneg (by linarith)
      have h2 : g a - q ≤ |g a - q| := le_abs_self _
      linarith
    · intro a ha hle
      rw [List.indexOf_cons_self]
      exact Nat.zero_le _

/-- On a list non-decreasing under `g`, a query at or above the last
element's value resolves to a minimizer whose `g`-value equals the last
element's value. -/
theorem argmin_dist_of_last_le {α : Type*} (g : α → ℚ) (q : ℚ)
    (l : List α) (hl : l ≠ [])
    (hs : l.Pairwise (fun a b => g a ≤ g b)) (hq : g (l.getLast hl) ≤ q) :
    ∃ m, l.argmin (fun x => |g x - q|) = some m ∧
      g m = g (l.getLast hl) := by
  cases hm : l.argmin (fun x => |g x - q|) with
  | none => exact absurd (List.argmin_eq_none.1 hm) hl
  | some m =>
    refine ⟨m, rfl, ?_⟩
    have hmem : m ∈ l := List.argmin_mem (Option.mem_def.mpr hm)
    have hmin : |g m - q| ≤ |g (l.getLast hl) - q| :=
      List.le_of_mem_argmin (f := fun x => |g x - q|)
        (List.getLast_mem hl) (Option.mem_def.mpr hm)
    have hml : g m ≤ g (l.getLast hl) :=
      le_getLast_of_pairwise g l hl hs m hmem
    have h1 : q - g m ≤ |g m - q| := by
      rw [abs_sub_comm]
      exact le_abs_self _
    have h2 : |g (l.getLast hl) - q| = q - g (l.getLast hl) := by
      rw [abs_sub_comm]
      exact abs_of_nonneg (by linarith)
    linarith

/-- Claim C2: for every non-empty sample sequence and any query time,
the chart sync loop and the map `findTrackPointByTime` return a sample
that minimizes the absolute difference to the query time, and among
samples at the minimal difference the one at the lowest index is
returned. -/
theorem nearest_sample_resolution (data : List DataPoint)
    (tp : List TrackPathPoint) (q t : ℚ)
    (hd : data ≠ []) (ht : tp ≠ []) :
    (∃ m, chartNearestDataPoint data q = some m ∧ m ∈ data ∧
      (∀ a ∈ data, |m.labelTime - q| ≤ |a.labelTime - q|) ∧
      (∀ a ∈ data, |a.labelTime - q| ≤ |m.labelTime - q| →
        data.indexOf m ≤ data.indexOf a)) ∧
    (∃ m, findTrackPointByTime tp t = some m ∧ m ∈ tp ∧
      (∀ a ∈ tp, |m.s - t| ≤ |a.s - t|) ∧
      (∀ a ∈ tp, |a.s - t| ≤ |m.s - t| → tp.indexOf m ≤ tp.indexOf a)) := by
  constructor
  · rw [chartNearestDataPoint_eq_argmin]
    cases hm : data.argmin (fun d => |d.labelTime - q|) with
    | none => exact absurd (List.argmin_eq_none.1 hm) hd
    | some m =>
      have h3 := List.argmin_eq_some_iff.1 hm
      exact ⟨m, rfl, h3.1, h3.2.1, h3.2.2⟩
  · rw [findTrackPointByTime_eq_argmin]
    cases hm : tp.argmin (fun p => |p.s - t|) with
    | none => exact absurd (List.argmin_eq_none.1 hm) ht
    | some m =>
      have h3 := List.argmin_eq_some_iff.1 hm
      exact ⟨m, rfl, h3.1, h3.2.1, h3.2.2⟩

/-- Claim C2 witness: the theorem applied to concrete two-point lists
whose query time ties both points; the lowest-index point wins. -/
theorem nearest_sample_resolution_witness :
    (([{ labelTime := 1, value := 10 }, { labelTime := 3, value := 20 }] :
        List DataPoint) ≠ []) ∧
    (([{ lat := 4, lng := 5, s := 1 }, { lat := 6, lng := 7, s := 3 }] :
        List TrackPathPoint) ≠ []) ∧
    ((∃ m, chartNearestDataPoint
        [{ labelTime := 1, value := 10 }, { labelTime := 3, value := 20 }]
        2 = some m ∧
      m ∈ ([{ labelTime := 1, value := 10 },
        { labelTime := 3, value := 20 }] : List DataPoint) ∧
      (∀ a ∈ ([{ labelTime := 1, value := 10 },
          { labelTime := 3, value := 20 }] : List DataPoint),
        |m.labelTime - 2| ≤ |a.labelTime - 2|) ∧
      (∀ a ∈ ([{ labelTime := 1, value := 10 },
          { labelTime := 3, value := 20 }] : List DataPoint),
        |a.labelTime - 2| ≤ |m.labelTime - 2| →
          List.indexOf m [{ labelTime := 1, value := 10 },
            { labelTime := 3, value := 20 }] ≤
          List.indexOf a [{ labelTime := 1, value := 10 },
            { labelTime := 3, value := 20 }])) ∧
    (∃ m, findTrackPointByTime
        [{ lat := 4, lng := 5, s := 1 }, { lat := 6, lng := 7, s := 3 }]
        2 = some m ∧
      m ∈ ([{ lat := 4, lng := 5, s := 1 },
        { lat := 6, lng := 7, s := 3 }] : List TrackPathPoint) ∧
      (∀ a ∈ ([{ lat := 4, lng := 5, s := 1 },
          { lat := 6, lng := 7, s := 3 }] : List TrackPathPoint),
        |m.s - 2| ≤ |a.s - 2|) ∧
      (∀ a ∈ ([{ lat := 4, lng := 5, s := 1 },
          { lat := 6, lng := 7, s := 3 }] : List TrackPathPoint),
        |a.s - 2| ≤ |m.s - 2| →
          List.indexOf m [{ lat := 4, lng := 5, s := 1 },
            { lat := 6, lng := 7, s := 3 }] ≤
          List.indexOf a [{ lat := 4, lng := 5, s := 1 },
            { lat := 6, lng := 7, s := 3 }]))) := by
  refine ⟨by decide, by decide, ?_⟩
  exact nearest_sample_resolution
    [{ labelTime := 1, value := 10 }, { labelTime := 3, value := 20 }]
    [{ lat := 4, lng := 5, s := 1 }, { lat := 6, lng := 7, s := 3 }]
    2 2 (by decide) (by decide)

/-- Claim C8 counterexample: on the non-decreasing track path with
times `[0, 5, 5]`, the query time `10` lies above the last sample's
time, yet the loop resolves to the index-1 sample, not the last
sample (the strict-improvement scan keeps the first sample attaining
the maximal time). -/
theorem clamp_not_last_sample :
    (List.Pairwise (fun a b : TrackPathPoint => a.s ≤ b.s)
      [{ lat := 1, lng := 1, s := 0 }, { lat := 2, lng := 2, s := 5 },
       { lat := 3, lng := 3, s := 5 }]) ∧
    (([{ lat := 1, lng := 1, s := 0 }, { lat := 2, lng := 2, s := 5 },
        { lat := 3, lng := 3, s := 5 }] :
      List TrackPathPoint).getLast (by decide) =
        { lat := 3, lng := 3, s := 5 }) ∧
    ((5 : ℚ) ≤ 10) ∧
    findTrackPointByTime
      [{ lat := 1, lng := 1, s := 0 }, { lat := 2, lng := 2, s := 5 },
       { lat := 3, lng := 3, s := 5 }] 10 =
      some { lat := 2, lng := 2, s := 5 } ∧
    ({ lat := 2, lng := 2, s := 5 } : TrackPathPoint) ≠
      { lat := 3, lng := 3, s := 5 } := by
  refine ⟨by decide, by decide, by decide, ?_, by decide⟩
  norm_num [findTrackPointByTime, findTrackPointStep]

/-- Claim C8 (amended): on non-empty sample sequences with
non-decreasing times, a query at or below the first sample's time
resolves to the first sample; a query at or above the last sample's
time resolves to a sample whose time equals the last sample's time
(when times are strictly increasing this is the last sample, but with
duplicated maximal times the earliest such sample is returned); and
the chart's continuous cursor x-position is clamped into the domain
`[minX, maxX]`. -/
theorem projector_clamp_spec (data : List DataPoint)
    (tp : List TrackPathPoint) (q t u minX maxX : ℚ)
    (hd : data ≠ []) (ht : tp ≠ [])
    (hsd : data.Pairwise (fun a b => a.labelTime ≤ b.labelTime))
    (hst : tp.Pairwise (fun a b => a.s ≤ b.s)) :
    (q ≤ (data.head hd).labelTime →
      chartNearestDataPoint data q = some (data.head hd)) ∧
    ((data.getLast hd).labelTime ≤ q →
      ∃ m, chartNearestDataPoint data q = some m ∧
        m.labelTime = (data.getLast hd).labelTime) ∧
    (t ≤ (tp.head ht).s →
      findTrackPointByTime tp t = some (tp.head ht)) ∧
    ((tp.getLast ht).s ≤ t →
      ∃ m, findTrackPointByTime tp t = some m ∧
        m.s = (tp.getLast ht).s) ∧
    (minX ≤ maxX →
      minX ≤ currentGraphTimeX minX maxX u ∧
        currentGraphTimeX minX maxX u ≤ maxX) := by
  refine ⟨?_, ?_, ?_, ?_, ?_⟩
  · intro hq
    rw [chartNearestDataPoint_eq_argmin]
    simpa using argmin_dist_of_le_head (fun d => d.labelTime) q data hd hsd hq
  · intro hq
    rw [chartNearestDataPoint_eq_argmin]
    simpa using argmin_dist_of_last_le (fun d => d.labelTime) q data hd hsd hq
  · intro hq
    rw [findTrackPointByTime_eq_argmin]
    simpa using argmin_dist_of_le_head (fun p => p.s) t tp ht hst hq
  · intro hq
    rw [findTrackPointByTime_eq_argmin]
    simpa using argmin_dist_of_last_le (fun p => p.s) t tp ht hst hq
  · intro hmm
    constructor
    · exact le_max_left _ _
    · exact max_le hmm (le_trans (min_le_left _ _) (le_refl _))

/-- Claim C8 witness: the amended theorem applied to concrete
two-point lists with one query below the range and one above it, and
concrete clamp bounds. -/
theorem projector_clamp_spec_witness :
    (([{ labelTime := 1, value := 10 }, { labelTime := 3, value := 20 }] :
      List DataPoint) ≠ []) ∧
    (([{ lat := 4, lng := 5, s := 1 }, { lat := 6, lng := 7, s := 3 }] :
      List TrackPathPoint) ≠ []) ∧
    (((0 : ℚ) ≤
        (([{ labelTime := 1, value := 10 },
            { labelTime := 3, value := 20 }] :
          List DataPoint).head (by decide)).labelTime →
      chartNearestDataPoint
        [{ labelTime := 1, value := 10 }, { labelTime := 3, value := 20 }]
        0 =
        some (([{ labelTime := 1, value := 10 },
            { labelTime := 3, value := 20 }] :
          List DataPoint).head (by decide))) ∧
    ((([{ lat := 4, lng := 5, s := 1 }, { lat := 6, lng := 7, s := 3 }] :
        List TrackPathPoint).getLast (by decide)).s ≤ (9 : ℚ) →
      ∃ m, findTrackPointByTime
        [{ lat := 4, lng := 5, s := 1 }, { lat := 6, lng := 7, s := 3 }]
        9 = some m ∧
        m.s = (([{ lat := 4, lng := 5, s := 1 },
            { lat := 6, lng := 7, s := 3 }] :
          List TrackPathPoint).getLast (by decide)).s) ∧
    ((2 : ℚ) ≤ 8 →
      (2 : ℚ) ≤ currentGraphTimeX 2 8 100 ∧
        currentGraphTimeX 2 8 100 ≤ 8)) := by
  refine ⟨by decide, by decide, ?_, ?_, ?_⟩
  · exact (projector_clamp_spec
      [{ labelTime := 1, value := 10 }, { labelTime := 3, value := 20 }]
      [{ lat := 4, lng := 5, s := 1 }, { lat := 6, lng := 7, s := 3 }]
      0 9 100 2 8 (by decide) (by decide) (by decide) (by decide)).1
  · exact (projector_clamp_spec
      [{ labelTime := 1, value := 10 }, { labelTime := 3, value := 20 }]
      [{ lat := 4, lng := 5, s := 1 }, { lat := 6, lng := 7, s := 3 }]
      0 9 100 2 8 (by decide) (by decide) (by decide) (by decide)).2.2.2.1
  · exact (projector_clamp_spec
      [{ labelTime := 1, value := 10 }, { labelTime := 3, value := 20 }]
      [{ lat := 4, lng := 5, s := 1 }, { lat := 6, lng := 7, s := 3 }]
      0 9 100 2 8 (by decide) (by decide) (by decide) (by decide)).2.2.2.2

/-- Claim C3: the chart pointer-move publish path with authority
inactive dispatches a detail holding only `time` — `userInitiated` is
absent (JavaScript `undefined`), not `true` — so the video driver's
listener, which only processes events whose `userInitiated` is `true`,
ignores every chart hover broadcast and the manual-scrub seek path is
unreachable; this contradicts the claim that such events carry
`userInitiated = true`. -/
theorem chart_hover_lacks_userInitiated (t lapStart : ℚ) (playing : Bool) :
    chartPointerMovePublish false t =
      some (dispatchHoverTimeEvent (some t)) ∧
    (dispatchHoverTimeEvent (some t)).userInitiated = none ∧
    (dispatchHoverTimeEvent (some t)).userInitiated ≠ some true ∧
    handleGraphHover lapStart playing (dispatchHoverTimeEvent (some t)) =
      HoverReaction.ignored := by
  refine ⟨rfl, rfl, by simp [dispatchHoverTimeEvent], ?_⟩
  simp [handleGraphHover, dispatchHoverTimeEvent]

/-- Claim C4: with no liveness guard in the fetch effect, switching
from lap 1 to lap 2 while lap 1's fetch is pending and letting lap 1's
response arrive after lap 2's leaves lap 1's stale data in the chart
state although lap 2 is selected — the old fetch's data IS applied,
contradicting the claim. -/
theorem stale_fetch_applied :
    (runChartFetch
      [ChartFetchEvent.selectLap 1, ChartFetchEvent.selectLap 2,
       ChartFetchEvent.resolve 2 [{ s := 1, d := some 20 }],
       ChartFetchEvent.resolve 1 [{ s := 1, d := some 10 }]]).selectedLap =
      some 2 ∧
    (runChartFetch
      [ChartFetchEvent.selectLap 1, ChartFetchEvent.selectLap 2,
       ChartFetchEvent.resolve 2 [{ s := 1, d := some 20 }],
       ChartFetchEvent.resolve 1 [{ s := 1, d := some 10 }]]).channelData =
      [{ s := 1, d := some 10 }] ∧
    ([{ s := 1, d := some 10 }] : List ChannelDataPoint) ≠
      [{ s := 1, d := some 20 }] := by
  exact ⟨rfl, rfl, by decide⟩

/-- Claim C6 counterexample: with a configured `endTime` of `0` and the
player at position `5 ≥ 0`, the tick writes the time but issues no
pause, because `if (endTime && …)` treats the configured `0` as falsy;
the claim requires a pause whenever an endTime is configured and the
position has reached it. -/
theorem pollingTick_zero_endTime :
    ((0 : ℚ) ≤ 5) ∧
    pollingTick 5 (some 0) = [PlayerCmd.setVideoTime 5] ∧
    PlayerCmd.pauseVideo ∉ pollingTick 5 (some 0) := by
  refine ⟨by decide, by decide, by decide⟩

/-- Claim C6 (amended): on every polling tick the first command is the
`setVideoTime` write of the player's current position, before the
end-time bound is evaluated; a pause command is issued exactly when an
`endTime` is configured, is non-zero (JavaScript truthiness skips the
check for `0`), and the current position has reached it. -/
theorem pollingTick_spec (t : ℚ) (endTime : Option ℚ) :
    (pollingTick t endTime).head? = some (PlayerCmd.setVideoTime t) ∧
    (PlayerCmd.pauseVideo ∈ pollingTick t endTime ↔
      ∃ e, endTime = some e ∧ e ≠ 0 ∧ e ≤ t) := by
  constructor
  · rfl
  · cases endTime with
    | none => simp [pollingTick]
    | some e =>
      by_cases h : e ≠ 0 ∧ e ≤ t
      · simp only [pollingTick, if_pos h]
        simp [h.1, h.2]
      · simp only [pollingTick, if_neg h]
        simp only [List.mem_singleton]
        constructor
        · intro hmem
          cases hmem
        · rintro ⟨e2, he2, hne, hle⟩
          cases he2
          exact absurd ⟨hne, hle⟩ h

/-- Clearing the referenced interval on a state satisfying the driver
invariant cancels every live timer. -/
theorem clearIntervalRef_live (st : DriverState) (h : driverInv st) :
    (clearIntervalRef st).liveIntervals = [] := by
  rcases h with h | ⟨i, hlive, href⟩
  · unfold clearIntervalRef
    cases st.intervalRef <;> simp [h]
  · unfold clearIntervalRef
    rw [href, hlive]
    simp

/-- Every driver step preserves the invariant. -/
theorem driverStep_inv (st : DriverState) (h : driverInv st)
    (e : PlayerEvent) : driverInv (driverStep st e) := by
  have hsync : driverInv { st with syncActive := true } := h
  have hsync2 : driverInv { st with syncActive := false } := h
  cases e with
  | playing =>
    right
    refine ⟨(clearIntervalRef { st with syncActive := true }).nextId, ?_, rfl⟩
    rw [driverStep]
    rw [clearIntervalRef_live { st with syncActive := true } hsync]
  | paused =>
    left
    rw [driverStep]
    exact clearIntervalRef_live { st with syncActive := false } hsync2
  | ended =>
    left
    rw [driverStep]
    exact clearIntervalRef_live { st with syncActive := false } hsync2
  | playerError =>
    left
    rw [driverStep]
    exact clearIntervalRef_live { st with syncActive := false } hsync2
  | cleanup =>
    left
    rw [driverStep]
    exact clearIntervalRef_live { st with syncActive := false } hsync2

/-- Folding any event sequence from an invariant state stays in the
invariant. -/
theorem foldl_driverStep_inv :
    ∀ (evs : List PlayerEvent) (st : DriverState), driverInv st →
      driverInv (evs.foldl driverStep st) := by
  intro evs
  induction evs with
  | nil => intro st h; exact h
  | cons e rest ih =>
    intro st h
    exact ih (driverStep st e) (driverStep_inv st h e)

/-- Every reachable driver state satisfies the invariant. -/
theorem runDriver_inv (evs : List PlayerEvent) :
    driverInv (runDriver evs) :=
  foldl_driverStep_inv evs initialDriverState (Or.inl rfl)

/-- Claim C7: in every reachable driver state at most one polling loop
is live (the handle is cleared before a new loop starts on entering
Playing, which also leaves exactly one live loop), and every
transition to Paused, Ended or Error, and the component teardown,
cancels all live loops. -/
theorem single_polling_loop (evs : List PlayerEvent) :
    (runDriver evs).liveIntervals.length ≤ 1 ∧
    (runDriver (evs ++ [PlayerEvent.playing])).liveIntervals.length = 1 ∧
    (runDriver (evs ++ [PlayerEvent.paused])).liveIntervals = [] ∧
    (runDriver (evs ++ [PlayerEvent.ended])).liveIntervals = [] ∧
    (runDriver (evs ++ [PlayerEvent.playerError])).liveIntervals = [] ∧
    (runDriver (evs ++ [PlayerEvent.cleanup])).liveIntervals = [] := by
  have hinv := runDriver_inv evs
  have happ : ∀ e : PlayerEvent,
      runDriver (evs ++ [e]) = driverStep (runDriver evs) e := by
    intro e
    unfold runDriver
    rw [List.foldl_append]
    rfl
  set st := runDriver evs with hst
  have hsync : driverInv { st with syncActive := true } := hinv
  have hsync2 : driverInv { st with syncActive := false } := hinv
  refine ⟨?_, ?_, ?_, ?_, ?_, ?_⟩
  · rcases hinv with h | ⟨i, hlive, _⟩
    · rw [h]; decide
    · rw [hlive]
      exact le_refl 1
  · rw [happ PlayerEvent.playing, driverStep,
      clearIntervalRef_live { st with syncActive := true } hsync]
    rfl
  · rw [happ PlayerEvent.paused, driverStep]
    exact clearIntervalRef_live { st with syncActive := false } hsync2
  · rw [happ PlayerEvent.ended, driverStep]
    exact clearIntervalRef_live { st with syncActive := false } hsync2
  · rw [happ PlayerEvent.playerError, driverStep]
    exact clearIntervalRef_live { st with syncActive := false } hsync2
  · rw [happ PlayerEvent.cleanup, driverStep]
    exact clearIntervalRef_live { st with syncActive := false } hsync2

end LapViz
